import Mathlib

/-!
Verification of the Genetic-Algorithm-Timetable repository.

Shallow embedding of the core of the repository:
  * `class_timing_constraint.py` (timing validator),
  * `schedule.py` (slot generator, genome construction, fitness),
  * `genetic_alg.py` (population construction, crossover, mutation, evolve).

Times of day are modelled as minutes since midnight (`Nat`); the Python code
stores them as `datetime` objects or as zero-padded strings of the shape
`HH:MM`, and both the `datetime` ordering and the lexicographic ordering on
such strings agree with the numeric ordering on minutes, so the translation
is faithful for times within one day.

The configuration constants (`constants.py` is an external collaborator of
the core, consumed as already-resolved values) are gathered in a `Constants`
structure and every embedded function is parametric in it.
-/

/-- The configuration constants imported from `constants.py` (external to the
core, consumed as already-resolved values): university operating hours, the
three break windows, the two slot durations and the list of weekdays.
All times are minutes since midnight; days are numbered. -/
structure Constants where
  university_start : Nat
  university_end : Nat
  break_one_start : Nat
  break_one_end : Nat
  lunch_start : Nat
  lunch_end : Nat
  break_two_start : Nat
  break_two_end : Nat
  time_slot_duration : Nat
  lab_time_slot_duration : Nat
  days_of_week : List Nat
  deriving Repr, DecidableEq

/-- Modelled from the spec: the `TimeSlot` dataclass lives in `models.py`,
which is not under `src/`; its fields (slot id, day-of-week, start/end
time-of-day, duration) are those given by the spec's data model and used
throughout `src/`.  The Python field `end` is a Lean keyword, rendered here
as `stop`. -/
structure TimeSlot where
  slot_id : Nat
  day : Nat
  start : Nat
  stop : Nat
  duration : Nat
  deriving Repr, DecidableEq

instance : Inhabited TimeSlot := ⟨⟨0, 0, 0, 0, 0⟩⟩

/-- `ClassTimingConstraint.do_time_slots_intersect` from
`class_timing_constraint.py`: `start1 < end2 and start2 < end1`. -/
def do_time_slots_intersect (start1 end1 start2 end2 : Nat) : Bool :=
  start1 < end2 && start2 < end1

/-- The `break_times` list built in `ClassTimingConstraint.__init__`:
`[ (break one), (lunch), (break two) ]`, each as a (start, end) pair. -/
def break_times (c : Constants) : List (Nat × Nat) :=
  [(c.break_one_start, c.break_one_end),
   (c.lunch_start, c.lunch_end),
   (c.break_two_start, c.break_two_end)]

/-- `ClassTimingConstraint.is_timing_valid`: the slot must satisfy
`start_time <= start < end_time and start_time < end <= end_time`, and must
not intersect any of the three break windows. -/
def is_timing_valid (c : Constants) (time_slot : TimeSlot) : Bool :=
  if !(c.university_start ≤ time_slot.start && time_slot.start < c.university_end
       && c.university_start < time_slot.stop && time_slot.stop ≤ c.university_end) then
    false
  else if (break_times c).any
      (fun w => do_time_slots_intersect time_slot.start time_slot.stop w.1 w.2) then
    false
  else
    true

/-- Modelled from the spec: the `ScheduledClass` dataclass lives in
`models.py`, which is not under `src/`; its fields (division, batch label,
department, course, time slot, room, professor) are those of the spec's data
model.  Division/batch/department/course/room/professor are identifiers. -/
structure ScheduledClass where
  division : Nat
  batch : Nat
  department : Nat
  course : Nat
  time_slot : TimeSlot
  room : Nat
  professor : Nat
  deriving Repr, DecidableEq

/-- `ClassTimingConstraint.check_timing_conflicts`: counts the scheduled
classes of the genome whose time slot fails `is_timing_valid`. -/
def check_timing_conflicts (c : Constants) (raw_schedule : List ScheduledClass) : Nat :=
  raw_schedule.countP (fun sc => !is_timing_valid c sc.time_slot)

/-- The early-return chain of `is_timing_valid` is the conjunction of the
bounds check and the absence of a break intersection. -/
lemma is_timing_valid_eq (c : Constants) (slot : TimeSlot) :
    is_timing_valid c slot =
      ((c.university_start ≤ slot.start && slot.start < c.university_end
        && c.university_start < slot.stop && slot.stop ≤ c.university_end)
       && !(break_times c).any
            (fun w => do_time_slots_intersect slot.start slot.stop w.1 w.2)) := by
  unfold is_timing_valid
  cases hb : (c.university_start ≤ slot.start && slot.start < c.university_end
      && c.university_start < slot.stop && slot.stop ≤ c.university_end) <;>
    cases ha : (break_times c).any
        (fun w => do_time_slots_intersect slot.start slot.stop w.1 w.2) <;>
      simp [hb, ha]

/-- Claim C8: `is_timing_valid(slot)` returns true iff slot.start ≥ operating
start, slot.start < operating end, slot.end > operating start, slot.end ≤
operating end, and the slot overlaps none of the configured break windows,
where overlap is the half-open test `a_start < b_end AND b_start < a_end`
computed by `do_time_slots_intersect`; intervals touching only at an endpoint
do not overlap. -/
theorem c8_is_timing_valid_spec :
    (∀ (c : Constants) (slot : TimeSlot),
      is_timing_valid c slot = true ↔
        (c.university_start ≤ slot.start ∧ slot.start < c.university_end ∧
         c.university_start < slot.stop ∧ slot.stop ≤ c.university_end ∧
         ∀ w ∈ break_times c,
           ¬(slot.start < w.2 ∧ w.1 < slot.stop))) ∧
    (∀ s1 e1 s2 e2 : Nat,
      do_time_slots_intersect s1 e1 s2 e2 = true ↔ (s1 < e2 ∧ s2 < e1)) ∧
    (∀ a b c : Nat, do_time_slots_intersect a b b c = false) ∧
    (∀ a b c : Nat, do_time_slots_intersect b c a b = false) := by
  refine ⟨?_, ?_, ?_, ?_⟩
  · intro c slot
    rw [is_timing_valid_eq]
    simp only [Bool.and_eq_true, Bool.not_eq_true', List.any_eq_false,
      do_time_slots_intersect, decide_eq_true_eq, Bool.and_eq_false_iff,
      decide_eq_false_iff_not, not_lt]
    tauto
  · intro s1 e1 s2 e2
    simp [do_time_slots_intersect]
  · intro a b c
    simp [do_time_slots_intersect]
  · intro a b c
    simp [do_time_slots_intersect]

/-- Modelled from the spec: `ScheduledClass.conflicts_with` lives in
`models.py`, which is not under `src/`.  Spec §4.6: two scheduled classes
conflict iff they share the room OR the professor, AND are on the same day,
AND their time intervals overlap (half-open overlap as in §4.2). -/
def conflicts_with (a b : ScheduledClass) : Bool :=
  (a.room == b.room || a.professor == b.professor)
    && a.time_slot.day == b.time_slot.day
    && do_time_slots_intersect a.time_slot.start a.time_slot.stop
         b.time_slot.start b.time_slot.stop

/-- The double loop of `ScheduleOptimizer.calculate_fitness`
(`for i ...: for j in range(i+1, ...)`): counts the ordered-index pairs
`i < j` with `raw_schedule[i].conflicts_with(raw_schedule[j])`, i.e. the
unordered pairs of conflicting scheduled classes. -/
def pairwise_conflicts : List ScheduledClass → Nat
  | [] => 0
  | sc :: rest => rest.countP (fun other => conflicts_with sc other) + pairwise_conflicts rest

/-- `ScheduleOptimizer.calculate_fitness`: `0.0` for an empty schedule,
otherwise `1 / (1 + conflicts)` where `conflicts` is the timing-conflict
count plus the pairwise-conflict count.  Python float arithmetic is exact on
these values (`1/(1+n)` for small `n`), modelled in `ℚ`. -/
def calculate_fitness (c : Constants) (raw_schedule : List ScheduledClass) : ℚ :=
  if raw_schedule.length = 0 then 0
  else 1 / (1 + ((check_timing_conflicts c raw_schedule + pairwise_conflicts raw_schedule : ℕ) : ℚ))

lemma one_div_one_add_nat_pos (n : ℕ) : 0 < 1 / (1 + (n : ℚ)) := by
  have h : (0 : ℚ) < 1 + (n : ℚ) := by positivity
  exact one_div_pos.mpr h

lemma one_div_one_add_nat_le_one (n : ℕ) : 1 / (1 + (n : ℚ)) ≤ 1 := by
  have h : (0 : ℚ) < 1 + (n : ℚ) := by positivity
  rw [div_le_one h]
  have := Nat.cast_nonneg (α := ℚ) n
  linarith

/-- Claim C1: `calculate_fitness` returns 0 exactly when the genome has no
scheduled classes; for a genome with at least one scheduled class it returns
`1/(1+conflicts)` where `conflicts` is the `check_timing_conflicts` count
plus the count of unordered pairs of conflicting scheduled classes, so the
result lies in `(0, 1]`, equals exactly `1` for zero conflicts and exactly
`1/2` for exactly one conflict. -/
theorem c1_calculate_fitness_spec (c : Constants) (raw : List ScheduledClass) :
    (calculate_fitness c raw = 0 ↔ raw = []) ∧
    (raw ≠ [] →
      calculate_fitness c raw =
        1 / (1 + ((check_timing_conflicts c raw + pairwise_conflicts raw : ℕ) : ℚ)) ∧
      0 < calculate_fitness c raw ∧ calculate_fitness c raw ≤ 1) ∧
    (raw ≠ [] → check_timing_conflicts c raw + pairwise_conflicts raw = 0 →
      calculate_fitness c raw = 1) ∧
    (raw ≠ [] → check_timing_conflicts c raw + pairwise_conflicts raw = 1 →
      calculate_fitness c raw = 1 / 2) := by
  refine ⟨⟨?_, ?_⟩, ?_, ?_, ?_⟩
  · intro h
    by_contra hne
    have hlen : ¬raw.length = 0 := by simpa using hne
    rw [calculate_fitness, if_neg hlen] at h
    have := one_div_one_add_nat_pos (check_timing_conflicts c raw + pairwise_conflicts raw)
    rw [h] at this
    exact lt_irrefl 0 this
  · intro h
    subst h
    simp [calculate_fitness]
  · intro hne
    have hlen : ¬raw.length = 0 := by simpa using hne
    rw [calculate_fitness, if_neg hlen]
    exact ⟨rfl, one_div_one_add_nat_pos _, one_div_one_add_nat_le_one _⟩
  · intro hne hzero
    have hlen : ¬raw.length = 0 := by simpa using hne
    rw [calculate_fitness, if_neg hlen, hzero]
    norm_num
  · intro hne hone
    have hlen : ¬raw.length = 0 := by simpa using hne
    rw [calculate_fitness, if_neg hlen, hone]
    norm_num

/-- A concrete configuration used to evaluate the embedding: operating hours
08:00–18:00 (480–1080 minutes), breaks 10:30–10:45, 13:30–14:30 (lunch) and
15:00–15:15, lecture duration 60, lab duration 120, a single day. -/
def cEx : Constants :=
  ⟨480, 1080, 630, 645, 810, 870, 900, 915, 60, 120, [0]⟩

/-- A timing-valid time slot under `cEx`: 08:00–09:00. -/
def slotEx : TimeSlot := ⟨1, 0, 480, 540, 60⟩

/-- A timing-invalid time slot under `cEx`: 07:00–08:00 (before opening). -/
def slotBad : TimeSlot := ⟨2, 0, 420, 480, 60⟩

/-- A concrete scheduled class sitting on the valid slot. -/
def scEx : ScheduledClass := ⟨0, 0, 0, 0, slotEx, 1, 1⟩

theorem c1_calculate_fitness_spec_witness :
    calculate_fitness cEx [scEx] = 1 ∧ calculate_fitness cEx [] = 0 := by
  refine ⟨(c1_calculate_fitness_spec cEx [scEx]).2.2.1 (by decide) (by decide), ?_⟩
  exact ((c1_calculate_fitness_spec cEx []).1).mpr rfl

/-- One day's `while` loop of `ScheduleOptimizer.populate_time_slots`:
walk `current_time` forward by the lecture duration while a lecture still
fits before closing time; a position starting inside the lunch window is
skipped (the id counter is not advanced); otherwise a lecture-length slot is
emitted and, when a lab-length slot still fits before closing time, a
lab-length slot at the same position as well.  Returns the emitted slots in
order together with the next id counter value.  The loop advances
`current_time` by the (positive) lecture duration each iteration, so the
`fuel` argument — instantiated with `university_end + 1` — strictly exceeds
the number of iterations and the fuelled recursion computes the loop exactly
(a zero lecture duration would make the Python loop diverge). -/
def walk_day (c : Constants) (day : Nat) : Nat → Nat → Nat → List TimeSlot × Nat
  | 0, _, time_slot_id => ([], time_slot_id)
  | fuel + 1, current_time, time_slot_id =>
    if current_time + c.time_slot_duration ≤ c.university_end then
      if c.lunch_start ≤ current_time ∧ current_time < c.lunch_end then
        walk_day c day fuel (current_time + c.time_slot_duration) time_slot_id
      else
        let lecture : TimeSlot :=
          ⟨time_slot_id, day, current_time,
           current_time + c.time_slot_duration, c.time_slot_duration⟩
        if current_time + c.lab_time_slot_duration ≤ c.university_end then
          let lab : TimeSlot :=
            ⟨time_slot_id + 1, day, current_time,
             current_time + c.lab_time_slot_duration, c.lab_time_slot_duration⟩
          let r := walk_day c day fuel (current_time + c.time_slot_duration) (time_slot_id + 2)
          (lecture :: lab :: r.1, r.2)
        else
          let r := walk_day c day fuel (current_time + c.time_slot_duration) (time_slot_id + 1)
          (lecture :: r.1, r.2)
    else ([], time_slot_id)

/-- `ScheduleOptimizer.populate_time_slots`: for every day of the week, run
the day walk, threading the monotone id counter (which starts at 1) across
days; the slots are accumulated in emission order.  The Python code inserts
the slots into a set, which never deduplicates because the ids are unique. -/
def populate_time_slots (c : Constants) : List TimeSlot :=
  (c.days_of_week.foldl
    (fun acc day =>
      let r := walk_day c day (c.university_end + 1) c.university_start acc.2
      (acc.1 ++ r.1, r.2))
    ([], 1)).1

/-- The per-slot properties of the day walk: every emitted slot satisfies
`end = start + duration`, ends no later than closing time, does not start
inside the lunch window, and carries an id in `[id, next_id)`; ids are
strictly increasing along the emission order and the counter never
decreases. -/
lemma walk_day_spec (c : Constants) (day : Nat) :
    ∀ (fuel current_time time_slot_id : Nat),
      (∀ s ∈ (walk_day c day fuel current_time time_slot_id).1,
        s.stop = s.start + s.duration ∧
        s.stop ≤ c.university_end ∧
        ¬(c.lunch_start ≤ s.start ∧ s.start < c.lunch_end) ∧
        time_slot_id ≤ s.slot_id ∧
        s.slot_id < (walk_day c day fuel current_time time_slot_id).2) ∧
      time_slot_id ≤ (walk_day c day fuel current_time time_slot_id).2 ∧
      (walk_day c day fuel current_time time_slot_id).1.Pairwise
        (fun a b => a.slot_id < b.slot_id) := by
  intro fuel
  induction fuel with
  | zero =>
    intro current_time time_slot_id
    simp [walk_day]
  | succ n ih =>
    intro current_time time_slot_id
    simp only [walk_day]
    split_ifs with h1 h2 h3
    · exact ih (current_time + c.time_slot_duration) time_slot_id
    · obtain ⟨ihmem, ihle, ihpw⟩ := ih (current_time + c.time_slot_duration) (time_slot_id + 2)
      refine ⟨?_, by omega, ?_⟩
      · intro s hs
        simp only [List.mem_cons] at hs
        rcases hs with rfl | rfl | hs
        · exact ⟨rfl, h1, h2, le_refl _, by dsimp only; omega⟩
        · exact ⟨rfl, h3, h2, by dsimp only; omega, by dsimp only; omega⟩
        · obtain ⟨p1, p2, p3, p4, p5⟩ := ihmem s hs
          exact ⟨p1, p2, p3, by omega, p5⟩
      · refine List.Pairwise.cons ?_ (List.Pairwise.cons ?_ ihpw)
        · intro b hb
          simp only [List.mem_cons] at hb
          rcases hb with rfl | hb
          · simp
          · have := (ihmem b hb).2.2.2.1
            simpa using by omega
        · intro b hb
          have := (ihmem b hb).2.2.2.1
          simpa using by omega
    · obtain ⟨ihmem, ihle, ihpw⟩ := ih (current_time + c.time_slot_duration) (time_slot_id + 1)
      refine ⟨?_, by omega, ?_⟩
      · intro s hs
        simp only [List.mem_cons] at hs
        rcases hs with rfl | hs
        · exact ⟨rfl, h1, h2, le_refl _, by dsimp only; omega⟩
        · obtain ⟨p1, p2, p3, p4, p5⟩ := ihmem s hs
          exact ⟨p1, p2, p3, by omega, p5⟩
      · refine List.Pairwise.cons ?_ ihpw
        intro b hb
        have := (ihmem b hb).2.2.2.1
        simpa using by omega
    · simp

/-- The day fold of `populate_time_slots` preserves the per-slot properties,
keeps all ids below the threaded counter and keeps the emission order
strictly increasing in ids. -/
lemma populate_fold_spec (c : Constants) :
    ∀ (days : List Nat) (acc : List TimeSlot × Nat),
      (∀ s ∈ acc.1,
        (s.stop = s.start + s.duration ∧
         s.stop ≤ c.university_end ∧
         ¬(c.lunch_start ≤ s.start ∧ s.start < c.lunch_end)) ∧
        s.slot_id < acc.2) →
      acc.1.Pairwise (fun a b => a.slot_id < b.slot_id) →
      ((∀ s ∈ (days.foldl
          (fun acc day =>
            let r := walk_day c day (c.university_end + 1) c.university_start acc.2
            (acc.1 ++ r.1, r.2)) acc).1,
          (s.stop = s.start + s.duration ∧
           s.stop ≤ c.university_end ∧
           ¬(c.lunch_start ≤ s.start ∧ s.start < c.lunch_end)) ∧
          s.slot_id < (days.foldl
            (fun acc day =>
              let r := walk_day c day (c.university_end + 1) c.university_start acc.2
              (acc.1 ++ r.1, r.2)) acc).2) ∧
       (days.foldl
          (fun acc day =>
            let r := walk_day c day (c.university_end + 1) c.university_start acc.2
            (acc.1 ++ r.1, r.2)) acc).1.Pairwise (fun a b => a.slot_id < b.slot_id)) := by
  intro days
  induction days with
  | nil =>
    intro acc hmem hpw
    exact ⟨hmem, hpw⟩
  | cons day rest ih =>
    intro acc hmem hpw
    simp only [List.foldl_cons]
    obtain ⟨wmem, wle, wpw⟩ := walk_day_spec c day (c.university_end + 1) c.university_start acc.2
    apply ih
    · intro s hs
      rcases List.mem_append.mp hs with hs | hs
      · obtain ⟨hp, hid⟩ := hmem s hs
        exact ⟨hp, by omega⟩
      · obtain ⟨p1, p2, p3, p4, p5⟩ := wmem s hs
        exact ⟨⟨p1, p2, p3⟩, p5⟩
    · rw [List.pairwise_append]
      refine ⟨hpw, wpw, ?_⟩
      intro a ha b hb
      have h1 := (hmem a ha).2
      have h2 := (wmem b hb).2.2.2.1
      omega

/-- Claim C7 (amended): every slot emitted by `populate_time_slots` satisfies
`end = start + duration`, ends no later than closing time, does not start
inside the lunch-break window (positions starting inside it are skipped),
and slot ids are strictly increasing along the emission order — hence unique
and monotonically assigned.  (The claim's further clause that no slot
overlaps any configured break window does not hold; see the
counterexample.) -/
theorem c7_populate_time_slots_amended (c : Constants) :
    (∀ s ∈ populate_time_slots c,
      s.stop = s.start + s.duration ∧
      s.stop ≤ c.university_end ∧
      ¬(c.lunch_start ≤ s.start ∧ s.start < c.lunch_end)) ∧
    (populate_time_slots c).Pairwise (fun a b => a.slot_id < b.slot_id) := by
  obtain ⟨hmem, hpw⟩ := populate_fold_spec c c.days_of_week ([], 1)
    (by intro s hs; simp at hs) (by simp)
  exact ⟨fun s hs => (hmem s hs).1, hpw⟩

/-- Claim C7 (counterexample): under the concrete configuration `cEx`
(operating 08:00–18:00, lunch 13:30–14:30, lecture duration 60), the
generated slot 13:00–14:00 starts before the lunch window but overlaps it,
so the claim that no generated slot overlaps any configured break window is
false. -/
theorem c7_counterexample :
    ¬(∀ s ∈ populate_time_slots cEx,
        ∀ w ∈ break_times cEx,
          do_time_slots_intersect s.start s.stop w.1 w.2 = false) := by
  decide

theorem c7_populate_time_slots_amended_witness :
    slotEx.stop = slotEx.start + slotEx.duration ∧
    slotEx.stop ≤ cEx.university_end ∧
    ¬(cEx.lunch_start ≤ slotEx.start ∧ slotEx.start < cEx.lunch_end) :=
  (c7_populate_time_slots_amended cEx).1 slotEx (by decide)

/-- The Python exception kinds raised by the embedded code: `ValueError`
(explicit raises), `TypeError` (calling `_choose_random_time_slot` — defined
without `self` — through the instance), `AttributeError` (accessing the
nonexistent `ScheduleOptimizer.is_valid_schedule`), `IndexError`
(`random.choice` on an empty sequence). -/
inductive PyErr where
  | valueErr
  | typeErr
  | attrErr
  | indexErr
  deriving Repr, DecidableEq

/-- `Population.is_valid_schedule`: the early-return loop over
`schedule.raw_schedule` returns false at the first class whose slot fails
`is_timing_valid`, true otherwise. -/
def is_valid_schedule (c : Constants) (raw_schedule : List ScheduledClass) : Bool :=
  raw_schedule.all (fun sc => is_timing_valid c sc.time_slot)

/-- The `while` loop of `Population._create_independent_schedule`.  The
factory is modelled as the sequence of genomes (raw schedules) its
successive invocations produce; `factory k` is the genome produced by the
k-th invocation (the initial call is invocation 0, the i-th retry is
invocation i).  The loop condition `not valid and retries < 100` is encoded
with `fuel = 100 - retries`; the validity test comes first in Python, but
when both conditions fail the loop exits with the same state either way, so
the encodings agree. -/
def create_retry_loop (c : Constants) (factory : Nat → List ScheduledClass) :
    List ScheduledClass → Nat → Nat → List ScheduledClass × Nat
  | schedule, retries, 0 => (schedule, retries)
  | schedule, retries, fuel + 1 =>
    if !is_valid_schedule c schedule then
      create_retry_loop c factory (factory (retries + 1)) (retries + 1) fuel
    else (schedule, retries)

/-- `Population._create_independent_schedule`: run the retry loop starting
from the initial factory invocation with `retries = 0` and
`max_retries = 100`; afterwards `if retries == max_retries: raise
ValueError(...)`, else return the schedule. -/
def create_independent_schedule (c : Constants) (factory : Nat → List ScheduledClass) :
    Except PyErr (List ScheduledClass) :=
  let r := create_retry_loop c factory (factory 0) 0 100
  if r.2 = 100 then Except.error PyErr.valueErr else Except.ok r.1

/-- Characterization of the retry loop started at invocation `r` with fuel
`n`: the final retry counter lies in `[r, r + n]`, the returned schedule is
the one produced at that counter, every invocation strictly before the final
counter produced an invalid genome, and if the loop stopped before
exhausting its budget the final genome is valid. -/
lemma create_retry_loop_char (c : Constants) (factory : Nat → List ScheduledClass) :
    ∀ (n r : Nat),
      r ≤ (create_retry_loop c factory (factory r) r n).2 ∧
      (create_retry_loop c factory (factory r) r n).2 ≤ r + n ∧
      (create_retry_loop c factory (factory r) r n).1 =
        factory (create_retry_loop c factory (factory r) r n).2 ∧
      (∀ k, r ≤ k → k < (create_retry_loop c factory (factory r) r n).2 →
        is_valid_schedule c (factory k) = false) ∧
      ((create_retry_loop c factory (factory r) r n).2 < r + n →
        is_valid_schedule c (factory (create_retry_loop c factory (factory r) r n).2) = true) := by
  intro n
  induction n with
  | zero =>
    intro r
    refine ⟨le_refl _, by simp [create_retry_loop], by simp [create_retry_loop], ?_, ?_⟩
    · intro k hk1 hk2
      simp [create_retry_loop] at hk2
      omega
    · intro h
      simp [create_retry_loop] at h
  | succ n ih =>
    intro r
    by_cases h : is_valid_schedule c (factory r) = true
    · have heq : create_retry_loop c factory (factory r) r (n + 1) = (factory r, r) := by
        simp [create_retry_loop, h]
      rw [heq]
      refine ⟨le_refl _, by omega, rfl, ?_, fun _ => h⟩
      intro k hk1 hk2
      omega
    · rw [Bool.not_eq_true] at h
      have heq : create_retry_loop c factory (factory r) r (n + 1) =
          create_retry_loop c factory (factory (r + 1)) (r + 1) n := by
        simp [create_retry_loop, h]
      rw [heq]
      obtain ⟨i1, i2, i3, i4, i5⟩ := ih (r + 1)
      refine ⟨by omega, by omega, i3, ?_, ?_⟩
      · intro k hk1 hk2
        rcases Nat.eq_or_lt_of_le hk1 with rfl | hk
        · exact h
        · exact i4 k (by omega) hk2
      · intro hlt
        exact i5 (by omega)

/-- Claim C3 (amended): `create_independent_schedule` raises the
construction-exhausted `ValueError` iff the initial invocation and the first
99 re-invocations all produce timing-invalid genomes — the 100th
re-invocation is still performed, but its result is discarded even when it
is timing-valid; with a factory that always produces an invalid genome the
loop performs exactly 100 re-invocations (final retry counter 100) and then
raises. -/
theorem c3_create_independent_schedule_amended (c : Constants)
    (factory : Nat → List ScheduledClass) :
    ((∃ e, create_independent_schedule c factory = Except.error e) ↔
      ∀ k < 100, is_valid_schedule c (factory k) = false) ∧
    ((∀ k, is_valid_schedule c (factory k) = false) →
      create_retry_loop c factory (factory 0) 0 100 = (factory 100, 100) ∧
      create_independent_schedule c factory = Except.error PyErr.valueErr) := by
  obtain ⟨h1, h2, h3, h4, h5⟩ := create_retry_loop_char c factory 100 0
  have key : (∀ k < 100, is_valid_schedule c (factory k) = false) ↔
      (create_retry_loop c factory (factory 0) 0 100).2 = 100 := by
    constructor
    · intro hall
      by_contra hne
      have hlt : (create_retry_loop c factory (factory 0) 0 100).2 < 100 := by omega
      have := h5 (by omega)
      have := hall _ hlt
      simp_all
    · intro h100
      intro k hk
      exact h4 k (by omega) (by omega)
  constructor
  · constructor
    · rintro ⟨e, he⟩
      rw [key]
      unfold create_independent_schedule at he
      by_contra hne
      rw [if_neg hne] at he
      exact Except.noConfusion he
    · intro hall
      refine ⟨PyErr.valueErr, ?_⟩
      unfold create_independent_schedule
      rw [if_pos (key.mp hall)]
  · intro hall
    have h100 : (create_retry_loop c factory (factory 0) 0 100).2 = 100 :=
      key.mp (fun k _ => hall k)
    constructor
    · have hfst : (create_retry_loop c factory (factory 0) 0 100).1 = factory 100 := by
        rw [h3, h100]
      exact Prod.ext hfst h100
    · unfold create_independent_schedule
      rw [if_pos h100]

/-- A timing-invalid scheduled class (its slot starts before opening). -/
def scBad : ScheduledClass := ⟨0, 0, 0, 0, slotBad, 1, 1⟩

/-- A factory whose first 100 invocations (the initial call and 99 retries)
produce a timing-invalid genome and whose 100th re-invocation produces a
timing-valid one. -/
def factoryLateValid : Nat → List ScheduledClass :=
  fun k => if k < 100 then [scBad] else [scEx]

/-- A factory that always produces a timing-invalid genome. -/
def factoryAllBad : Nat → List ScheduledClass := fun _ => [scBad]

/-- Claim C3 (counterexample): with `factoryLateValid`, a timing-valid
genome is produced within the 100-re-invocation budget (on the 100th
re-invocation), yet `create_independent_schedule` still raises the
construction-exhausted error — refuting the claim's "raises if and only if
no timing-valid genome is produced within the budget". -/
theorem c3_counterexample :
    create_independent_schedule cEx factoryLateValid = Except.error PyErr.valueErr ∧
    is_valid_schedule cEx (factoryLateValid 100) = true := by
  constructor
  · rfl
  · decide

theorem c3_create_independent_schedule_amended_witness :
    create_independent_schedule cEx factoryAllBad = Except.error PyErr.valueErr :=
  ((c3_create_independent_schedule_amended cEx factoryAllBad).2 (fun k => by
    show is_valid_schedule cEx [scBad] = false
    decide)).2

/-- `choice([class_a, class_b])` in the crossover selection loop: a coin
`true` picks the first parent's class, `false` the second's. -/
def redraw_pick (class_a class_b : ScheduledClass) (coin : Bool) : ScheduledClass :=
  if coin then class_a else class_b

/-- Termination of the per-position `while not is_timing_valid(...)` redraw
loop of `EvolutionManager.crossover`, relative to the stream `s` of coin
draws: the loop halts iff some draw picks a class whose slot is
timing-valid.  The loop has no iteration cap, which is exactly why its
halting is the unbounded existential over the draw stream. -/
def redraw_halts (c : Constants) (class_a class_b : ScheduledClass) (s : Nat → Bool) : Prop :=
  ∃ n, is_timing_valid c (redraw_pick class_a class_b (s n)).time_slot = true

/-- The whole crossover selection pass halts: at every zipped position the
redraw loop for that position halts (position `i` consumes the draw stream
`s i`). -/
def crossover_selection_halts (c : Constants)
    (pairs : List (ScheduledClass × ScheduledClass)) (s : Nat → Nat → Bool) : Prop :=
  ∀ i, ∀ h : i < pairs.length,
    redraw_halts c (pairs.get ⟨i, h⟩).1 (pairs.get ⟨i, h⟩).2 (s i)

/-- Claim C4: the per-position selection loop re-draws between the two
parents' classes with no iteration cap; if both classes at some position
have timing-invalid slots the loop never terminates (for every draw stream),
and a draw-stream under which the whole selection pass terminates exists iff
at every zipped position at least one of the two classes has a timing-valid
slot (under uniform random draws a terminating stream is then reached with
probability 1). -/
theorem c4_crossover_redraw_termination :
    (∀ (c : Constants) (class_a class_b : ScheduledClass) (s : Nat → Bool),
      is_timing_valid c class_a.time_slot = false →
      is_timing_valid c class_b.time_slot = false →
      ¬redraw_halts c class_a class_b s) ∧
    (∀ (c : Constants) (pairs : List (ScheduledClass × ScheduledClass)),
      (∃ s, crossover_selection_halts c pairs s) ↔
        ∀ p ∈ pairs,
          is_timing_valid c p.1.time_slot = true ∨
          is_timing_valid c p.2.time_slot = true) := by
  constructor
  · rintro c class_a class_b s ha hb ⟨n, hn⟩
    cases hcoin : s n <;> rw [hcoin] at hn <;> simp [redraw_pick] at hn <;>
      simp_all
  · intro c pairs
    constructor
    · rintro ⟨s, hs⟩ p hp
      obtain ⟨⟨i, hi⟩, rfl⟩ := List.mem_iff_get.mp hp
      obtain ⟨n, hn⟩ := hs i hi
      cases hcoin : s i n <;> rw [hcoin] at hn <;> simp [redraw_pick] at hn
      · right; exact hn
      · left; exact hn
    · intro hall
      refine ⟨fun i _ =>
        is_timing_valid c ((pairs.getD i (⟨0,0,0,0,⟨0,0,0,0,0⟩,0,0⟩, ⟨0,0,0,0,⟨0,0,0,0,0⟩,0,0⟩)).1.time_slot), ?_⟩
      intro i hi
      have hget : pairs.getD i (⟨0,0,0,0,⟨0,0,0,0,0⟩,0,0⟩, ⟨0,0,0,0,⟨0,0,0,0,0⟩,0,0⟩) =
          pairs.get ⟨i, hi⟩ := List.getD_eq_get _ _ hi
      refine ⟨0, ?_⟩
      dsimp only
      rw [hget]
      rcases hall (pairs.get ⟨i, hi⟩) (pairs.get_mem _ _) with h | h
      · rw [h]
        simpa [redraw_pick] using h
      · cases hva : is_timing_valid c (pairs.get ⟨i, hi⟩).1.time_slot
        · simpa [redraw_pick] using h
        · simpa [redraw_pick] using hva

theorem c4_crossover_redraw_termination_witness :
    ¬redraw_halts cEx scBad scBad (fun _ => true) :=
  c4_crossover_redraw_termination.1 cEx scBad scBad (fun _ => true)
    (by decide) (by decide)

/-- The possible results of the top of `EvolutionManager.crossover`: return
`parent_a` unchanged, return `parent_b` unchanged (no offspring is created
in either case), or fall through to building one offspring via the factory
and the per-position selection over the zipped parent schedules. -/
inductive CrossoverOutcome where
  | parent_a
  | parent_b
  | offspring
  deriving Repr, DecidableEq

/-- The branch structure of `EvolutionManager.crossover`: `if random() >
self._crossover_rate: return choice([parent_a, parent_b])`.  `r` is the
uniform draw in `[0,1)`; `pick_a` is the subsequent uniform parent choice
(not inspected unless the guard holds). -/
def crossover_branch (crossover_rate r : ℚ) (pick_a : Bool) : CrossoverOutcome :=
  if r > crossover_rate then
    (if pick_a then CrossoverOutcome.parent_a else CrossoverOutcome.parent_b)
  else CrossoverOutcome.offspring

/-- The event, inside the uniform draw range `[0,1)`, that the crossover
guard `random() > crossover_rate` fires and a parent is returned unchanged —
embedded into `ℝ` so its probability under the uniform distribution is its
Lebesgue measure. -/
def crossover_parent_event_real (crossover_rate : ℝ) : Set ℝ :=
  {r : ℝ | 0 ≤ r ∧ r < 1 ∧ crossover_rate < r}

/-- Claim C6 (amended): crossover returns one of the two parents unchanged
(chosen uniformly by the second draw, creating no offspring) exactly when
the uniform draw exceeds `crossover_rate` — an event of probability
`1 - crossover_rate`, not `crossover_rate`; otherwise (draw ≤ rate, an event
of probability `crossover_rate`) it builds one offspring via the factory and
per-position selection over the zipped parent schedules. -/
theorem c6_crossover_branch_amended (crossover_rate r : ℚ) (pick_a : Bool) :
    (crossover_branch crossover_rate r pick_a = CrossoverOutcome.offspring ↔
      r ≤ crossover_rate) ∧
    (crossover_rate < r →
      crossover_branch crossover_rate r pick_a =
        (if pick_a then CrossoverOutcome.parent_a else CrossoverOutcome.parent_b)) ∧
    (∀ rate : ℝ, 0 ≤ rate → rate ≤ 1 →
      MeasureTheory.volume (crossover_parent_event_real rate) =
        ENNReal.ofReal (1 - rate)) := by
  refine ⟨?_, ?_, ?_⟩
  · unfold crossover_branch
    by_cases h : crossover_rate < r
    · rw [if_pos h]
      constructor
      · intro hcontra
        cases pick_a <;> simp_all
      · intro hle
        exact absurd h (not_lt.mpr hle)
    · rw [if_neg h]
      exact ⟨fun _ => not_lt.mp h, fun _ => rfl⟩
  · intro h
    unfold crossover_branch
    rw [if_pos h]
  · intro rate h0 h1
    have hset : crossover_parent_event_real rate = Set.Ioo rate 1 := by
      ext x
      unfold crossover_parent_event_real
      simp only [Set.mem_setOf_eq, Set.mem_Ioo]
      constructor
      · rintro ⟨_, hx1, hx2⟩
        exact ⟨hx2, hx1⟩
      · rintro ⟨hx1, hx2⟩
        exact ⟨le_trans h0 (le_of_lt hx1), hx2, hx1⟩
    rw [hset, Real.volume_Ioo]

/-- Claim C6 (counterexample): at crossover rate `3/4`, the draw `1/2` lies
in the event of probability `crossover_rate` (the draws below the rate), yet
the code builds an offspring rather than returning a parent; and the actual
parent-return event has uniform probability `1/4 = 1 - 3/4`, which differs
from `3/4` — so "with probability `crossover_rate`, crossover returns one
parent unchanged" is false as stated. -/
theorem c6_counterexample :
    crossover_branch (3/4) (1/2) true = CrossoverOutcome.offspring ∧
    ((1 : ℚ)/2 < 3/4) ∧
    MeasureTheory.volume (crossover_parent_event_real (3/4)) =
      ENNReal.ofReal (1/4) ∧
    ENNReal.ofReal ((1 : ℝ)/4) ≠ ENNReal.ofReal ((3 : ℝ)/4) := by
  refine ⟨by rw [crossover_branch, if_neg (by norm_num)], by norm_num, ?_, ?_⟩
  · have hset : crossover_parent_event_real (3/4) = Set.Ioo (3/4 : ℝ) 1 := by
      ext x
      unfold crossover_parent_event_real
      simp only [Set.mem_setOf_eq, Set.mem_Ioo]
      constructor
      · rintro ⟨_, hx1, hx2⟩
        exact ⟨hx2, hx1⟩
      · rintro ⟨hx1, hx2⟩
        refine ⟨by linarith, hx2, hx1⟩
    rw [hset, Real.volume_Ioo]
    norm_num
  · rw [Ne, ENNReal.ofReal_eq_ofReal_iff] <;> norm_num

theorem c6_crossover_branch_amended_witness :
    crossover_branch (1/4) (1/2) true = CrossoverOutcome.parent_a ∧
    MeasureTheory.volume (crossover_parent_event_real (1/4)) =
      ENNReal.ofReal (1 - 1/4) :=
  ⟨(c6_crossover_branch_amended (1/4) (1/2) true).2.1 (by norm_num),
   (c6_crossover_branch_amended (1/4) (1/2) true).2.2 (1/4) (by norm_num) (by norm_num)⟩

/-- `random.choice` on a list, with the pick modelled by an arbitrary index
reduced modulo the length; `choice([])` raises `IndexError`, handled at the
call sites. -/
def choice_at (l : List TimeSlot) (i : Nat) : TimeSlot :=
  l.getD (i % l.length) default

/-- `EvolutionManager.mutate`: `random_class = choice(raw_schedule)` and
`random_time_slot = choice(list(time_slots))` (each raising `IndexError` on
an empty sequence), then with `random() < mutation_rate`: if the chosen slot
fails `is_timing_valid` the mutation is skipped; otherwise the code calls
`schedule_optimizer.is_valid_schedule(schedule_optimizer, timing_constraint)`
— but `ScheduleOptimizer` has no attribute `is_valid_schedule` (that method
is defined on `Population`), so the attribute lookup raises
`AttributeError` and the in-place `random_class.time_slot = random_time_slot`
overwrite below it is unreachable.  `class_pick`/`slot_pick` are the uniform
choice indices, `r` the uniform draw. -/
def mutate (c : Constants) (raw_schedule : List ScheduledClass)
    (time_slots : List TimeSlot) (class_pick slot_pick : Nat)
    (r mutation_rate : ℚ) : Except PyErr (List ScheduledClass) :=
  if raw_schedule.length = 0 then Except.error PyErr.indexErr
  else if time_slots.length = 0 then Except.error PyErr.indexErr
  else
    let random_time_slot := choice_at time_slots slot_pick
    if r < mutation_rate then
      if !is_timing_valid c random_time_slot then
        Except.ok raw_schedule
      else
        Except.error PyErr.attrErr
    else Except.ok raw_schedule

/-- Claim C5 (code bug): when the mutation coin fires and the chosen slot is
timing-valid, `mutate` raises `AttributeError` instead of performing (or
discarding) the mutation, because it calls the nonexistent
`ScheduleOptimizer.is_valid_schedule`; the claimed no-op cases (invalid
slot, coin not firing) do behave as no-ops, and the in-place overwrite is
unreachable — so `mutate` never modifies any schedule. -/
theorem c5_mutate_attribute_bug :
    mutate cEx [scEx] [slotEx] 0 0 0 (1/2) = Except.error PyErr.attrErr ∧
    mutate cEx [scEx] [slotBad] 0 0 0 (1/2) = Except.ok [scEx] ∧
    mutate cEx [scEx] [slotEx] 0 0 (3/4) (1/2) = Except.ok [scEx] := by
  have hv : is_timing_valid cEx slotEx = true := by decide
  have hb : is_timing_valid cEx slotBad = false := by decide
  refine ⟨?_, ?_, ?_⟩
  · simp only [mutate, choice_at]
    norm_num [hv]
  · simp only [mutate, choice_at]
    norm_num [hb]
  · simp only [mutate, choice_at]
    norm_num

/-- Modelled from the spec: `Room` (identifier plus per-slot reservation
marks) lives in `models.py`, which is not under `src/`. -/
structure Room where
  room_number : Nat
  reserved : List TimeSlot
  deriving Repr, DecidableEq

/-- Modelled from the spec: `Professor` (identifier, availability window,
per-slot reservation marks) lives in `models.py`, not under `src/`. -/
structure Professor where
  name : Nat
  available_start : Nat
  available_end : Nat
  reserved : List TimeSlot
  deriving Repr, DecidableEq

/-- Modelled from the spec: `Course` lives in `models.py`, not under
`src/`: title, weekly lecture count, weekly lab count, assigned lecture
professor and (optionally) lab professor. -/
structure Course where
  title : Nat
  weekly_lectures : Nat
  weekly_labs : Nat
  assigned_professor : Option Professor
  lab_professor : Option Professor
  deriving Repr, DecidableEq

/-- Modelled from the spec: `Department` lives in `models.py`, not under
`src/`: name and ordered offered courses. -/
structure Department where
  name : Nat
  offered_courses : List Course
  deriving Repr, DecidableEq

/-- Modelled from the spec: `Division` lives in `models.py`, not under
`src/`: name and number of lab batches. -/
structure Division where
  name : Nat
  num_batches : Nat
  deriving Repr, DecidableEq

/-- The `ScheduleOptimizer` dataclass state from `schedule.py`: the genome's
scheduled classes, resource pools, slot set, departments, divisions and
cached fitness (sentinel `-1.0` = not yet computed). -/
structure ScheduleOptimizer where
  raw_schedule : List ScheduledClass
  rooms : List Room
  lab_rooms : List Room
  time_slots : List TimeSlot
  departments : List Department
  divisions : List Division
  fitness : ℚ
  deriving Repr, DecidableEq

/-- The call `self._choose_random_time_slot(pool)` in
`_schedule_course_lectures` / `_schedule_course_labs`:
`_choose_random_time_slot` is declared as
`def _choose_random_time_slot(time_slots): ...` — without a `self`
parameter — yet it is invoked through the instance.  Python's bound-method
call passes the instance as the first positional argument, so the call
supplies two positional arguments to a one-parameter function and raises
`TypeError` before the function body runs. -/
def choose_random_time_slot_call : Except PyErr (Option TimeSlot) :=
  Except.error PyErr.typeErr

/-- The `for _ in range(course.weekly_lectures)` loop of
`_schedule_course_lectures`: each iteration increments `attempts`, returns
early once `attempts > 20` ("Max attempts reached ... skipping"), and
otherwise executes `self._choose_random_time_slot(lecture_slots)` as its
first statement — which always raises (see
`choose_random_time_slot_call`), so the rest of the loop body (professor
re-pick loop, slot removal, room pick, booking) is unreachable and is not
modelled. -/
def lecture_attempt_loop (s : ScheduleOptimizer) :
    Nat → Nat → ScheduleOptimizer × Option PyErr
  | 0, _ => (s, none)
  | remaining + 1, attempts =>
    if attempts + 1 > 20 then (s, none)
    else
      match choose_random_time_slot_call with
      | Except.error e => (s, some e)
      | Except.ok _ => lecture_attempt_loop s remaining (attempts + 1)

/-- `ScheduleOptimizer._schedule_course_lectures`: filter the genome's slot
set to lecture-duration slots; `if not lecture_slots: raise ValueError("Not
enough free time slots for scheduling this lecture!")`; then run the
attempt loop with `attempts = 0`. -/
def schedule_course_lectures (c : Constants) (s : ScheduleOptimizer)
    (course : Course) : ScheduleOptimizer × Option PyErr :=
  let lecture_slots := s.time_slots.filter (fun t => t.duration == c.time_slot_duration)
  if lecture_slots.length = 0 then (s, some PyErr.valueErr)
  else lecture_attempt_loop s course.weekly_lectures 0

/-- The inner `for batch in range(1, div.num_batches + 1)` loop of
`_schedule_course_labs`: `some result` means the whole function returned
(early return on attempt exhaustion, or an exception), `none` means the
inner loop finished and the outer loop continues with the updated attempt
counter.  As in the lecture loop, the first statement of each iteration
raises `TypeError`, so the rest of the body is unreachable. -/
def lab_batch_loop (s : ScheduleOptimizer) :
    Nat → Nat → Option (ScheduleOptimizer × Option PyErr) × Nat
  | 0, attempts => (none, attempts)
  | remaining + 1, attempts =>
    if attempts + 1 > 20 then (some (s, none), attempts + 1)
    else
      match choose_random_time_slot_call with
      | Except.error e => (some (s, some e), attempts + 1)
      | Except.ok _ => lab_batch_loop s remaining (attempts + 1)

/-- The outer `for _ in range(course.weekly_labs)` loop of
`_schedule_course_labs`. -/
def lab_attempt_loop (s : ScheduleOptimizer) (num_batches : Nat) :
    Nat → Nat → ScheduleOptimizer × Option PyErr
  | 0, _ => (s, none)
  | remaining + 1, attempts =>
    match lab_batch_loop s num_batches attempts with
    | (some result, _) => result
    | (none, attempts') => lab_attempt_loop s num_batches remaining attempts'

/-- `ScheduleOptimizer._schedule_course_labs`: filter to lab-duration slots;
`if not lab_slots: raise ValueError(...)`; then run the nested attempt
loops with `attempts = 0`. -/
def schedule_course_labs (c : Constants) (s : ScheduleOptimizer)
    (course : Course) (div : Division) : ScheduleOptimizer × Option PyErr :=
  let lab_slots := s.time_slots.filter (fun t => t.duration == c.lab_time_slot_duration)
  if lab_slots.length = 0 then (s, some PyErr.valueErr)
  else lab_attempt_loop s div.num_batches course.weekly_labs 0

/-- Sequencing with Python exception propagation: a raised exception aborts
the remaining statements and carries the state at the raise unchanged. -/
def step_bind (r : ScheduleOptimizer × Option PyErr)
    (f : ScheduleOptimizer → ScheduleOptimizer × Option PyErr) :
    ScheduleOptimizer × Option PyErr :=
  match r with
  | (s, some e) => (s, some e)
  | (s, none) => f s

/-- One `(course, div)` step of `_schedule_department`: schedule the
lectures, then, if the course has labs, the labs. -/
def schedule_course_for_division (c : Constants) (course : Course)
    (div : Division) (s : ScheduleOptimizer) : ScheduleOptimizer × Option PyErr :=
  step_bind (schedule_course_lectures c s course) (fun s1 =>
    if course.weekly_labs > 0 then schedule_course_labs c s1 course div
    else (s1, none))

/-- The `for div in divisions` loop of `_schedule_department`. -/
def schedule_division_loop (c : Constants) (course : Course) :
    List Division → ScheduleOptimizer → ScheduleOptimizer × Option PyErr
  | [], s => (s, none)
  | d :: rest, s =>
      step_bind (schedule_course_for_division c course d s)
        (schedule_division_loop c course rest)

/-- `ScheduleOptimizer._schedule_department`: loop over the department's
offered courses, and for each course over the divisions. -/
def schedule_department (c : Constants) (divisions : List Division) :
    List Course → ScheduleOptimizer → ScheduleOptimizer × Option PyErr
  | [], s => (s, none)
  | course :: rest, s =>
      step_bind (schedule_division_loop c course divisions s)
        (schedule_department c divisions rest)

/-- The `for department in self.departments` loop of `create_schedule`. -/
def schedule_departments_loop (c : Constants) (divisions : List Division) :
    List Department → ScheduleOptimizer → ScheduleOptimizer × Option PyErr
  | [], s => (s, none)
  | dept :: rest, s =>
      step_bind (schedule_department c divisions dept.offered_courses s)
        (schedule_departments_loop c divisions rest)

/-- `ScheduleOptimizer.create_schedule`: clear `raw_schedule`, build the
hard-coded division set `{Division("A", 2), Division("B", 2)}` (names
rendered as 0 and 1), and schedule every department. -/
def create_schedule (c : Constants) (s : ScheduleOptimizer) :
    ScheduleOptimizer × Option PyErr :=
  let s0 : ScheduleOptimizer := {s with raw_schedule := []}
  schedule_departments_loop c [⟨0, 2⟩, ⟨1, 2⟩] s0.departments s0

lemma lecture_attempt_loop_fst (s : ScheduleOptimizer) :
    ∀ n a, (lecture_attempt_loop s n a).1 = s := by
  intro n
  induction n with
  | zero => intro a; rfl
  | succ m ih =>
    intro a
    rw [lecture_attempt_loop]
    split_ifs
    · rfl
    · exact ih (a + 1) ▸ rfl

lemma lab_batch_loop_fst (s : ScheduleOptimizer) :
    ∀ n a p a', lab_batch_loop s n a = (some p, a') → p.1 = s := by
  intro n
  induction n with
  | zero =>
    intro a p a' h
    simp [lab_batch_loop] at h
  | succ m ih =>
    intro a p a' h
    rw [lab_batch_loop] at h
    split_ifs at h
    · simp at h
      rw [← h.1]
    · simp [choose_random_time_slot_call] at h
      rw [← h.1]

lemma lab_attempt_loop_fst (s : ScheduleOptimizer) (nb : Nat) :
    ∀ n a, (lab_attempt_loop s nb n a).1 = s := by
  intro n
  induction n with
  | zero => intro a; rfl
  | succ m ih =>
    intro a
    rw [lab_attempt_loop]
    cases hb : lab_batch_loop s nb a with
    | mk o a' =>
      cases o with
      | none => exact ih a'
      | some p => exact lab_batch_loop_fst s nb a p a' hb

lemma schedule_course_lectures_fst (c : Constants) (s : ScheduleOptimizer)
    (course : Course) : (schedule_course_lectures c s course).1 = s := by
  unfold schedule_course_lectures
  dsimp only
  split_ifs
  · rfl
  · exact lecture_attempt_loop_fst s course.weekly_lectures 0

lemma schedule_course_labs_fst (c : Constants) (s : ScheduleOptimizer)
    (course : Course) (div : Division) :
    (schedule_course_labs c s course div).1 = s := by
  unfold schedule_course_labs
  dsimp only
  split_ifs
  · rfl
  · exact lab_attempt_loop_fst s div.num_batches course.weekly_labs 0

lemma step_bind_fst (s : ScheduleOptimizer) (r : ScheduleOptimizer × Option PyErr)
    (f : ScheduleOptimizer → ScheduleOptimizer × Option PyErr)
    (hr : r.1 = s) (hf : ∀ t, (f t).1 = t) : (step_bind r f).1 = s := by
  cases r with
  | mk a b =>
    cases b with
    | none =>
      simp only [step_bind]
      rw [hf a]
      exact hr
    | some e => exact hr

lemma schedule_course_for_division_fst (c : Constants) (course : Course)
    (div : Division) (s : ScheduleOptimizer) :
    (schedule_course_for_division c course div s).1 = s := by
  unfold schedule_course_for_division
  apply step_bind_fst _ _ _ (schedule_course_lectures_fst c s course)
  intro t
  split_ifs
  · exact schedule_course_labs_fst c t course div
  · rfl

lemma schedule_division_loop_fst (c : Constants) (course : Course) :
    ∀ (divs : List Division) (s : ScheduleOptimizer),
      (schedule_division_loop c course divs s).1 = s := by
  intro divs
  induction divs with
  | nil => intro s; rfl
  | cons d rest ih =>
    intro s
    exact step_bind_fst s _ _ (schedule_course_for_division_fst c course d s) ih

lemma schedule_department_fst (c : Constants) (divisions : List Division) :
    ∀ (courses : List Course) (s : ScheduleOptimizer),
      (schedule_department c divisions courses s).1 = s := by
  intro courses
  induction courses with
  | nil => intro s; rfl
  | cons course rest ih =>
    intro s
    exact step_bind_fst s _ _ (schedule_division_loop_fst c course divisions s) ih

lemma schedule_departments_loop_fst (c : Constants) (divisions : List Division) :
    ∀ (depts : List Department) (s : ScheduleOptimizer),
      (schedule_departments_loop c divisions depts s).1 = s := by
  intro depts
  induction depts with
  | nil => intro s; rfl
  | cons dept rest ih =>
    intro s
    exact step_bind_fst s _ _
      (schedule_department_fst c divisions dept.offered_courses s) ih

lemma step_bind_error (s : ScheduleOptimizer) (e : PyErr)
    (f : ScheduleOptimizer → ScheduleOptimizer × Option PyErr) :
    step_bind (s, some e) f = (s, some e) := rfl

/-- Claim C10: for every course with at least one weekly lecture
(respectively lab, with at least one batch) and a non-empty pool of
matching-duration slots, the first slot pick raises `TypeError` (because
`_choose_random_time_slot` is declared without `self` yet invoked through
the instance) and the genome state is returned untouched; consequently
`create_schedule` never appends a `ScheduledClass` or commits any
room/professor reservation — its resulting state is always exactly the
input genome with `raw_schedule` cleared — and when the first course of the
first department has a weekly lecture and the lecture pool is non-empty the
`TypeError` propagates out of `create_schedule` (the factory body). -/
theorem c10_choose_random_time_slot_type_error :
    (∀ (c : Constants) (s : ScheduleOptimizer) (course : Course),
      1 ≤ course.weekly_lectures →
      s.time_slots.filter (fun t => t.duration == c.time_slot_duration) ≠ [] →
      schedule_course_lectures c s course = (s, some PyErr.typeErr)) ∧
    (∀ (c : Constants) (s : ScheduleOptimizer) (course : Course) (div : Division),
      1 ≤ course.weekly_labs → 1 ≤ div.num_batches →
      s.time_slots.filter (fun t => t.duration == c.lab_time_slot_duration) ≠ [] →
      schedule_course_labs c s course div = (s, some PyErr.typeErr)) ∧
    (∀ (c : Constants) (s : ScheduleOptimizer),
      (create_schedule c s).1 = {s with raw_schedule := []}) ∧
    (∀ (c : Constants) (s : ScheduleOptimizer) (dept : Department)
       (course : Course) (rest1 : List Department) (rest2 : List Course),
      s.departments = dept :: rest1 →
      dept.offered_courses = course :: rest2 →
      1 ≤ course.weekly_lectures →
      s.time_slots.filter (fun t => t.duration == c.time_slot_duration) ≠ [] →
      create_schedule c s = ({s with raw_schedule := []}, some PyErr.typeErr)) := by
  have hlect : ∀ (c : Constants) (s : ScheduleOptimizer) (course : Course),
      1 ≤ course.weekly_lectures →
      s.time_slots.filter (fun t => t.duration == c.time_slot_duration) ≠ [] →
      schedule_course_lectures c s course = (s, some PyErr.typeErr) := by
    intro c s course h1 h2
    unfold schedule_course_lectures
    rw [if_neg (by simpa using h2)]
    cases hn : course.weekly_lectures with
    | zero => omega
    | succ m =>
      rw [lecture_attempt_loop]
      norm_num [choose_random_time_slot_call]
  refine ⟨hlect, ?_, ?_, ?_⟩
  · intro c s course div h1 h2 h3
    unfold schedule_course_labs
    rw [if_neg (by simpa using h3)]
    cases hn : course.weekly_labs with
    | zero => omega
    | succ m =>
      rw [lab_attempt_loop]
      cases hb : div.num_batches with
      | zero => omega
      | succ b =>
        rw [lab_batch_loop]
        norm_num [choose_random_time_slot_call]
  · intro c s
    exact schedule_departments_loop_fst c [⟨0, 2⟩, ⟨1, 2⟩] _ _
  · intro c s dept course rest1 rest2 hdept hcourse h1 h2
    unfold create_schedule
    have hdepts : ({s with raw_schedule := []} : ScheduleOptimizer).departments =
        dept :: rest1 := hdept
    rw [hdepts, schedule_departments_loop, schedule_department.eq_def]
    rw [hcourse]
    have herr : schedule_course_lectures c
        { raw_schedule := [], rooms := s.rooms, lab_rooms := s.lab_rooms,
          time_slots := s.time_slots, departments := dept :: rest1,
          divisions := s.divisions, fitness := s.fitness } course =
        ({ raw_schedule := [], rooms := s.rooms, lab_rooms := s.lab_rooms,
           time_slots := s.time_slots, departments := dept :: rest1,
           divisions := s.divisions, fitness := s.fitness }, some PyErr.typeErr) := by
      apply hlect _ _ _ h1
      simpa using h2
    simp only [schedule_division_loop, schedule_course_for_division, herr, step_bind]

/-- A genome state with no time slots at all. -/
def soNoSlots : ScheduleOptimizer := ⟨[], [], [], [], [], [], -1⟩

/-- A genome state whose slot pool holds the single lecture-length slot
`slotEx`. -/
def soOneSlot : ScheduleOptimizer := ⟨[], [], [], [slotEx], [], [], -1⟩

/-- A course with one weekly lecture and no labs. -/
def courseOne : Course := ⟨0, 1, 0, none, none⟩

theorem c10_choose_random_time_slot_type_error_witness :
    schedule_course_lectures cEx soOneSlot ⟨1, 2, 0, none, none⟩ =
      (soOneSlot, some PyErr.typeErr) :=
  c10_choose_random_time_slot_type_error.1 cEx soOneSlot ⟨1, 2, 0, none, none⟩
    (by decide) (by decide)

/-- Claim C9 (code bug): the claimed skip-and-continue handling of resource
exhaustion is not what the code does.  With an empty matching-duration pool
`_schedule_course_lectures` deliberately raises `ValueError`, and with a
non-empty pool the very first slot pick raises `TypeError` (the
`_choose_random_time_slot` binding slip of C10), so the no-slot / no-room /
no-professor skip branches — which do exist in the code, with their log
messages — are unreachable; no unit of work is ever skipped-and-continued. -/
theorem c9_resource_exhaustion_raises :
    schedule_course_lectures cEx soNoSlots courseOne =
      (soNoSlots, some PyErr.valueErr) ∧
    schedule_course_lectures cEx soOneSlot courseOne =
      (soOneSlot, some PyErr.typeErr) ∧
    schedule_course_labs cEx soNoSlots ⟨0, 0, 1, none, none⟩ ⟨0, 2⟩ =
      (soNoSlots, some PyErr.valueErr) := by
  refine ⟨rfl, ?_, rfl⟩
  rw [schedule_course_lectures]
  norm_num [courseOne, lecture_attempt_loop, choose_random_time_slot_call, soOneSlot,
    slotEx, cEx]

/-- `Population.get_best_schedule`: `max(self.schedules, key=lambda s:
s.fitness)` — a left fold that replaces the running best only on a strictly
greater fitness (Python's `max` keeps the first of equals); `max` on an
empty sequence raises, modelled as `none`. -/
def get_best_schedule : List ScheduleOptimizer → Option ScheduleOptimizer
  | [] => none
  | g :: rest =>
      some (rest.foldl (fun best s => if best.fitness < s.fitness then s else best) g)

/-- `Population.evaluate_fitness`: recompute and cache
`schedule.calculate_fitness()` for every genome. -/
def evaluate_fitness (c : Constants) (schedules : List ScheduleOptimizer) :
    List ScheduleOptimizer :=
  schedules.map (fun g => {g with fitness := calculate_fitness c g.raw_schedule})

/-- `EvolutionManager.evolve`, abstracted over the offspring that the
crossover/mutation loop happens to produce (any exception during an
individual offspring's crossover/mutation is caught and that offspring
discarded, so the loop only ever appends some list of offspring): the next
generation is the current best genome followed by the offspring, and the
new population's fitness is recomputed for all members
(`new_population.evaluate_fitness()`).  The interim `Population(...)`
construction inside `evolve` is discarded by the
`new_population.schedules = next_generation` overwrite and so does not
affect the returned generation (though it may itself raise, in which case
`evolve` does not return). -/
def evolve_schedules (c : Constants) (population offspring : List ScheduleOptimizer) :
    List ScheduleOptimizer :=
  match get_best_schedule population with
  | none => []
  | some best => evaluate_fitness c (best :: offspring)

/-- The fold inside `get_best_schedule` returns an element of the scanned
prefix whose fitness dominates the running best and everything scanned. -/
lemma get_best_fold_spec :
    ∀ (l : List ScheduleOptimizer) (cur : ScheduleOptimizer),
      (l.foldl (fun best s => if best.fitness < s.fitness then s else best) cur) ∈ cur :: l ∧
      cur.fitness ≤ (l.foldl (fun best s => if best.fitness < s.fitness then s else best) cur).fitness ∧
      ∀ g ∈ l, g.fitness ≤ (l.foldl (fun best s => if best.fitness < s.fitness then s else best) cur).fitness := by
  intro l
  induction l with
  | nil =>
    intro cur
    refine ⟨List.mem_cons_self _ _, le_refl _, ?_⟩
    intro g hg
    simp at hg
  | cons x rest ih =>
    intro cur
    simp only [List.foldl_cons]
    obtain ⟨i1, i2, i3⟩ := ih (if cur.fitness < x.fitness then x else cur)
    have hcurle : cur.fitness ≤ (if cur.fitness < x.fitness then x else cur).fitness := by
      split_ifs with h
      · exact le_of_lt h
      · exact le_refl _
    have hxle : x.fitness ≤ (if cur.fitness < x.fitness then x else cur).fitness := by
      split_ifs with h
      · exact le_refl _
      · exact le_of_not_lt h
    refine ⟨?_, le_trans hcurle i2, ?_⟩
    · rcases List.mem_cons.mp i1 with h | h
      · rw [h]
        split_ifs with hc
        · exact List.mem_cons_of_mem _ (List.mem_cons_self _ _)
        · exact List.mem_cons_self _ _
      · exact List.mem_cons_of_mem _ (List.mem_cons_of_mem _ h)
    · intro g hg
      rcases List.mem_cons.mp hg with h | h
      · rw [h]
        exact le_trans hxle i2
      · exact i3 g h

/-- `get_best_schedule` returns a member of the population whose fitness is
maximal. -/
lemma get_best_schedule_spec (pop : List ScheduleOptimizer) (b : ScheduleOptimizer)
    (h : get_best_schedule pop = some b) :
    b ∈ pop ∧ ∀ g ∈ pop, g.fitness ≤ b.fitness := by
  cases pop with
  | nil => simp [get_best_schedule] at h
  | cons g rest =>
    simp only [get_best_schedule, Option.some.injEq] at h
    obtain ⟨i1, i2, i3⟩ := get_best_fold_spec rest g
    subst h
    refine ⟨i1, ?_⟩
    intro g2 hg2
    rcases List.mem_cons.mp hg2 with h | h
    · rw [h]; exact i2
    · exact i3 g2 h

/-- Claim C2: across one `evolve()` call that returns, the next generation
is seeded with the single best genome of the old generation, carried over
unconditionally at the head with its schedule untouched (it is not
re-mutated — indeed `mutate` is only applied to offspring, and its in-place
write is unreachable, see C5), and the maximum fitness of the new
generation is ≥ the maximum fitness of the old generation.  The hypothesis
that each cached fitness is at most the recomputed fitness of the same
schedule holds for every reachable population: a cached value is either the
`-1.0` sentinel or a previously computed `calculate_fitness` of an
unchanged schedule. -/
theorem c2_evolve_elitism (c : Constants)
    (population offspring : List ScheduleOptimizer)
    (hne : population ≠ [])
    (hinv : ∀ g ∈ population, g.fitness ≤ calculate_fitness c g.raw_schedule) :
    ∃ best, get_best_schedule population = some best ∧
      (∀ g ∈ population, g.fitness ≤ best.fitness) ∧
      evolve_schedules c population offspring = evaluate_fitness c (best :: offspring) ∧
      (evolve_schedules c population offspring).head? =
        some {best with fitness := calculate_fitness c best.raw_schedule} ∧
      ∀ best2, get_best_schedule (evolve_schedules c population offspring) = some best2 →
        best.fitness ≤ best2.fitness := by
  cases hpop : get_best_schedule population with
  | none =>
    cases population with
    | nil => exact absurd rfl hne
    | cons g rest => simp [get_best_schedule] at hpop
  | some best =>
    obtain ⟨hmem, hmax⟩ := get_best_schedule_spec population best hpop
    have hevolve : evolve_schedules c population offspring =
        evaluate_fitness c (best :: offspring) := by
      rw [evolve_schedules, hpop]
    refine ⟨best, rfl, hmax, hevolve, ?_, ?_⟩
    · rw [hevolve]
      rfl
    · intro best2 hbest2
      obtain ⟨hmem2, hmax2⟩ :=
        get_best_schedule_spec (evolve_schedules c population offspring) best2 hbest2
      have hhead : ({best with fitness := calculate_fitness c best.raw_schedule} :
          ScheduleOptimizer) ∈ evolve_schedules c population offspring := by
        rw [hevolve]
        exact List.mem_cons_self _ _
      have h1 := hmax2 _ hhead
      have h2 := hinv best hmem
      exact le_trans h2 h1

/-- A one-genome population carrying the `-1.0` fitness sentinel. -/
def popEx : List ScheduleOptimizer := [soOneSlot]

theorem c2_evolve_elitism_witness :
    ∃ best, get_best_schedule popEx = some best ∧
      (∀ g ∈ popEx, g.fitness ≤ best.fitness) ∧
      evolve_schedules cEx popEx [] = evaluate_fitness cEx (best :: []) ∧
      (evolve_schedules cEx popEx []).head? =
        some {best with fitness := calculate_fitness cEx best.raw_schedule} ∧
      ∀ best2, get_best_schedule (evolve_schedules cEx popEx []) = some best2 →
        best.fitness ≤ best2.fitness :=
  c2_evolve_elitism cEx popEx [] (by simp [popEx])
    (by
      intro g hg
      simp only [popEx, List.mem_singleton] at hg
      subst hg
      show (-1 : ℚ) ≤ calculate_fitness cEx []
      norm_num [calculate_fitness])
